import Mathlib

/-!
Shallow embedding of the movie-api aggregation/ranking engine.

The embedded code is the two top-level operations of the service:

* the category search (handler getMoviesByGenre in main.go; the second
  source variant differs only in two extra projected display fields), and
* the relation search (handler getRecommendations, in both source
  variants: the one with a shared request-scoped seen set and a
  three-page-per-keyword stream, and the older one with per-axis seen
  sets and a final merge-and-dedup pass).

The external metadata provider (OMDb over HTTP) is modelled as a record
of abstract response functions: a call either fails (transport or decode
error, or a body with Response == "False", which the fetch helpers turn
into a Go error) or yields a decoded body.  Go maps used as string sets
are modelled as lists of strings with membership; the mutable set shared
by closures is threaded explicitly through the state.  Go's sort.Slice
is modelled by the insertion sort that sort.Slice itself runs for short
slices; sort.Slice guarantees an ordering by the comparator but does not
promise a particular order of ties, and no theorem below depends on the
order of ties.  strconv.ParseFloat is modelled on plain decimal literals
with exact rational values (score strings are compared through it, with
a failed parse contributing the zero value, as in the Go code that
ignores the parse error).
-/

namespace MovieApi

/-- Auxiliary loop for splitting a character list at a separator. -/
def splitCharAux (sep : Char) : List Char → List Char → List String
  | [], cur => [String.mk cur.reverse]
  | c :: cs, cur =>
    if c = sep then String.mk cur.reverse :: splitCharAux sep cs []
    else splitCharAux sep cs (c :: cur)

/-- Model of Go strings.Split with a one-character separator: splitting the
empty string yields one empty field, and separators delimit fields. -/
def goSplit (s : String) (sep : Char) : List String :=
  splitCharAux sep s.data []

/-- ASCII whitespace predicate used by the TrimSpace model. -/
def isSpaceChar (c : Char) : Bool :=
  c = ' ' || c = '\t' || c = '\n' || c = '\r'

/-- Model of Go strings.TrimSpace (ASCII whitespace). -/
def goTrim (s : String) : String :=
  String.mk (((s.data.dropWhile isSpaceChar).reverse.dropWhile isSpaceChar).reverse)

/-- ASCII lower-casing of one character. -/
def lowerChar (c : Char) : Char :=
  if 'A' ≤ c ∧ c ≤ 'Z' then Char.ofNat (c.toNat + 32) else c

/-- Model of Go strings.EqualFold (ASCII case folding). -/
def goEqualFold (a b : String) : Bool :=
  a.data.map lowerChar == b.data.map lowerChar

/-- Decimal digit predicate. -/
def isDigitChar (c : Char) : Bool :=
  '0' ≤ c && c ≤ '9'

/-- Value of a digit string, most significant first. -/
def digitsToNat : List Char → Nat → Nat
  | [], acc => acc
  | c :: cs, acc => digitsToNat cs (acc * 10 + (c.toNat - 48))

/-- An exact decimal value: a signed numerator over a positive
power-of-ten denominator, kept unreduced so that comparisons stay in
integer arithmetic. -/
structure DecValue where
  num : Int
  den : Nat
deriving DecidableEq, Repr

/-- A numerator with the sign applied. -/
def decSign (neg : Bool) (n : Nat) : Int :=
  if neg then -(n : Int) else (n : Int)

/-- Digits of an optionally signed decimal literal, after the sign: an
integer part, an optional dot and fractional part, nothing else. -/
def parseDecCore (neg : Bool) (cs : List Char) : Option DecValue :=
  match cs.dropWhile isDigitChar with
  | [] =>
    if (cs.takeWhile isDigitChar).isEmpty then none
    else some ⟨decSign neg (digitsToNat (cs.takeWhile isDigitChar) 0), 1⟩
  | '.' :: frac =>
    if frac.all isDigitChar ∧ ¬((cs.takeWhile isDigitChar).isEmpty ∧ frac.isEmpty) then
      some ⟨decSign neg (digitsToNat (cs.takeWhile isDigitChar) 0 * 10 ^ frac.length +
        digitsToNat frac 0), 10 ^ frac.length⟩
    else none
  | _ => none

/-- Model of strconv.ParseFloat restricted to plain decimal literals
(optional sign, digits, optional fractional part), returning the exact
value; every other input, in particular the rating sentinel "N/A",
fails to parse. -/
def parseDec (s : String) : Option DecValue :=
  match s.data with
  | '-' :: rest => parseDecCore true rest
  | '+' :: rest => parseDecCore false rest
  | cs => parseDecCore false cs

/-- Decimal value a rating string contributes to the sort comparator:
the parsed value, or the zero value when the parse fails (the Go code
ignores the error returned by strconv.ParseFloat, leaving the float
zero value). -/
def ratingDec (s : String) : DecValue :=
  (parseDec s).getD ⟨0, 1⟩

/-- The rational value of an exact decimal. -/
def toQ (v : DecValue) : ℚ :=
  (v.num : ℚ) / (v.den : ℚ)

/-- Strict order on exact decimals by cross multiplication; agrees with
the rational order whenever the denominators are positive, which holds
for every parsed value. -/
def decLtB (x y : DecValue) : Bool :=
  decide (x.num * (y.den : Int) < y.num * (x.den : Int))

/-- The numeric score of a rating string, as a rational: the quantity
the ranking invariants below speak about. -/
def ratingVal (s : String) : ℚ :=
  toQ (ratingDec s)

/-- The Go truncation idiom: when the list is longer than the limit,
keep its first limit entries. -/
def capAt {α : Type} (n : Nat) (l : List α) : List α :=
  if n < l.length then l.take n else l

/-- One step of the insertion sort: place x before the first element it
compares strictly less-than under the comparator (ties keep x after). -/
def insertGo {α : Type} (less : α → α → Bool) (x : α) : List α → List α
  | [] => [x]
  | y :: ys => if less x y then x :: y :: ys else y :: insertGo less x ys

/-- Left fold of the insertion step over the input. -/
def sortFold {α : Type} (less : α → α → Bool) : List α → List α → List α
  | acc, [] => acc
  | acc, x :: xs => sortFold less (insertGo less x acc) xs

/-- Model of Go sort.Slice with the given comparator: the insertion sort
sort.Slice itself runs for short slices.  sort.Slice promises a
permutation ordered by the comparator but not a particular order of
ties; no theorem below depends on the order of ties. -/
def sortSlice {α : Type} (less : α → α → Bool) (l : List α) : List α :=
  sortFold less [] l

/-- One lightweight search hit, as decoded from a search page
(SearchResults.Search element in the source; the source field Type is
rendered TypeField because Type is a reserved word here). -/
structure SearchItem where
  Title : String
  Year : String
  IMDBID : String
  TypeField : String
deriving DecidableEq, Repr

/-- One decoded search page (SearchResults in the source). -/
structure SearchResults where
  Search : List SearchItem
  Response : String
deriving DecidableEq, Repr

/-- One decoded full record (MovieResponse in the source; fields the
embedded handlers never read, such as Plot and Ratings, are omitted). -/
structure MovieResponse where
  Title : String
  Year : String
  Genre : String
  Director : String
  Actors : String
  Country : String
  Awards : String
  IMDBID : String
  IMDBRating : String
  Response : String
deriving DecidableEq, Repr

/-- The metadata provider as observed through one request: each field
gives the decoded body of the corresponding OMDb call, or none for a
transport or decode failure.  search is the page-less search of main.go
(fetchSearchResults there sends no page parameter); searchPage is the
paged search of the other variant. -/
structure RawProvider where
  movieById : String → Option MovieResponse
  movieByTitle : String → Option MovieResponse
  search : String → Option SearchResults
  searchPage : String → Nat → Option SearchResults

/-- fetchMovie on an id lookup: a decoded body whose Response field is
"False" is turned into an error (none). -/
def fetchMovieById (p : RawProvider) (id : String) : Option MovieResponse :=
  match p.movieById id with
  | none => none
  | some m => if m.Response = "False" then none else some m

/-- fetchMovie on a title lookup, with the same Response-field check. -/
def fetchMovieByTitle (p : RawProvider) (t : String) : Option MovieResponse :=
  match p.movieByTitle t with
  | none => none
  | some m => if m.Response = "False" then none else some m

/-- fetchSearchResults of main.go, with the Response-field check. -/
def fetchSearch (p : RawProvider) (q : String) : Option SearchResults :=
  match p.search q with
  | none => none
  | some r => if r.Response = "False" then none else some r

/-- fetchSearchPage of the second variant, with the Response-field check. -/
def fetchSearchPage (p : RawProvider) (q : String) (page : Nat) : Option SearchResults :=
  match p.searchPage q page with
  | none => none
  | some r => if r.Response = "False" then none else some r

/-- A provider is id-coherent when resolving an identifier yields a
record bearing that identifier, as the spec's data model stipulates for
the stable external identifier. -/
def Coherent (p : RawProvider) : Prop :=
  ∀ id m, p.movieById id = some m → m.IMDBID = id

/-- One element of the category-search result list (the map literal
appended to matchingMovies in getMoviesByGenre). -/
structure GenreMovie where
  Title : String
  Year : String
  Genre : String
  imdbRating : String
  imdbID : String
deriving DecidableEq, Repr

/-- The fixed seed vocabulary of the category search. -/
def searchSeeds : List String :=
  ["the", "a", "love", "man", "girl", "night", "day"]

/-- Does the comma-split tag field contain the requested category value,
case-insensitively after trimming (the inner genre loop with its break)? -/
def genreMatches (genreField query : String) : Bool :=
  (goSplit genreField ',').any fun g => goEqualFold (goTrim g) query

/-- Projection of a resolved record to a category-search result entry. -/
def mkGenreMovie (m : MovieResponse) : GenreMovie :=
  ⟨m.Title, m.Year, m.Genre, m.IMDBRating, m.IMDBID⟩

/-- Inner loop of getMoviesByGenre over the hits of one search page:
resolve each hit, skip resolution failures, records with Response
"False" or rating "N/A", and records whose tag list does not contain the
requested genre; append the rest. -/
def genreItemLoop (p : RawProvider) (genre : String) :
    List SearchItem → List GenreMovie → List GenreMovie
  | [], acc => acc
  | item :: rest, acc =>
    match fetchMovieById p item.IMDBID with
    | none => genreItemLoop p genre rest acc
    | some movie =>
      if movie.Response = "False" ∨ movie.IMDBRating = "N/A" then
        genreItemLoop p genre rest acc
      else if genreMatches movie.Genre genre then
        genreItemLoop p genre rest (acc ++ [mkGenreMovie movie])
      else genreItemLoop p genre rest acc

/-- Outer loop of getMoviesByGenre over the seed vocabulary: a failed
search is skipped (continue) and the next seed is tried. -/
def genreSeedLoop (p : RawProvider) (genre : String) :
    List String → List GenreMovie → List GenreMovie
  | [], acc => acc
  | seed :: rest, acc =>
    match fetchSearch p seed with
    | none => genreSeedLoop p genre rest acc
    | some results => genreSeedLoop p genre rest (genreItemLoop p genre results.Search acc)

/-- The comparator handed to sort.Slice by the category search. -/
def genreLess (a b : GenreMovie) : Bool :=
  decLtB (ratingDec b.imdbRating) (ratingDec a.imdbRating)

/-- The category search of main.go after query validation: collect over
the seeds, sort by rating descending, truncate to 15 when longer. -/
def getMoviesByGenre (p : RawProvider) (genre : String) : List GenreMovie :=
  capAt 15 (sortSlice genreLess (genreSeedLoop p genre searchSeeds []))

/-- One element of a relation-axis result list in the current variant
(the map literal appended to results inside collect, including the axis
label stored under Why). -/
structure RecMovie where
  Title : String
  Year : String
  Genre : String
  Country : String
  Awards : String
  imdbRating : String
  imdbID : String
  Why : String
deriving DecidableEq, Repr

/-- Projection of a resolved record to a relation-axis entry. -/
def mkRecMovie (level : String) (m : MovieResponse) : RecMovie :=
  ⟨m.Title, m.Year, m.Genre, m.Country, m.Awards, m.IMDBRating, m.IMDBID, level⟩

/-- The comparator handed to sort.Slice by collect. -/
def recLess (a b : RecMovie) : Bool :=
  decLtB (ratingDec b.imdbRating) (ratingDec a.imdbRating)

/-- State of one relation-search request while collect runs: the entries
accepted so far for the current axis (results is reset per collect call)
and the identifiers marked seen (the one map shared by all axes of the
request). -/
structure CState where
  results : List RecMovie
  seen : List String
deriving DecidableEq, Repr

/-- Inner loop of collect over the hits of one search page: skip hits
already seen, hits whose resolution fails and hits rated "N/A"; on
acceptance mark the hit seen, append its projection, and break out of
the page once the limit is reached. -/
def itemsLoop (p : RawProvider) (level : String) (limit : Nat) :
    List SearchItem → CState → CState
  | [], st => st
  | s :: rest, st =>
    if s.IMDBID ∈ st.seen then itemsLoop p level limit rest st
    else
      match fetchMovieById p s.IMDBID with
      | none => itemsLoop p level limit rest st
      | some movie =>
        if movie.IMDBRating = "N/A" then itemsLoop p level limit rest st
        else
          let st' : CState := ⟨st.results ++ [mkRecMovie level movie], st.seen ++ [s.IMDBID]⟩
          if limit ≤ st'.results.length then st'
          else itemsLoop p level limit rest st'

/-- Page loop of collect for one keyword: pages counted off by the fuel
(three at the call site), stopping early once the limit is reached; a
failed page fetch is skipped (continue) and the next page of the same
keyword is tried. -/
def pagesLoop (p : RawProvider) (level : String) (limit : Nat) (kw : String) :
    Nat → Nat → CState → CState
  | 0, _, st => st
  | fuel + 1, page, st =>
    if st.results.length < limit then
      match fetchSearchPage p kw page with
      | none => pagesLoop p level limit kw fuel (page + 1) st
      | some r => pagesLoop p level limit kw fuel (page + 1) (itemsLoop p level limit r.Search st)
    else st

/-- Keyword loop of collect: blank and "N/A" keywords are skipped after
trimming; the loop breaks once the limit is reached. -/
def kwLoop (p : RawProvider) (level : String) (limit : Nat) :
    List String → CState → CState
  | [], st => st
  | kw0 :: rest, st =>
    let kw := goTrim kw0
    if kw = "" ∨ kw = "N/A" then kwLoop p level limit rest st
    else
      let st' := pagesLoop p level limit kw 3 1 st
      if limit ≤ st'.results.length then st'
      else kwLoop p level limit rest st'

/-- collect of the current variant: run the keyword loop with an empty
per-axis result list against the request-shared seen set, then sort the
accepted entries by rating descending.  The Go closure mutates the
request-scoped seen map; here the updated seen set is returned alongside
the sorted results. -/
def collect (p : RawProvider) (level : String) (keywords : List String)
    (limit : Nat) (seen : List String) : List RecMovie × List String :=
  (sortSlice recLess (kwLoop p level limit keywords ⟨[], seen⟩).results,
   (kwLoop p level limit keywords ⟨[], seen⟩).seen)

/-- The relation-search response body of the current variant. -/
structure RecOutput where
  favorite_movie : String
  by_genre : List RecMovie
  by_director : List RecMovie
  by_actor : List RecMovie
deriving DecidableEq, Repr

/-- The body of the relation search once the favorite has resolved:
split its genre, director and actor fields, seed the shared seen set
with the favorite's identifier, and run collect once per axis with
limit 5, threading the seen set from axis to axis. -/
def getRecommendationsCore (p : RawProvider) (favMovie : MovieResponse) : RecOutput :=
  let genres := goSplit favMovie.Genre ','
  let directors := goSplit favMovie.Director ','
  let actors := goSplit favMovie.Actors ','
  let r1 := collect p "Genre" genres 5 [favMovie.IMDBID]
  let r2 := collect p "Director" directors 5 r1.2
  let r3 := collect p "Actor" actors 5 r2.2
  ⟨favMovie.Title, r1.1, r2.1, r3.1⟩

/-- The relation search of the current variant: resolve the favorite
(404 when that fails), then run the three axis collects. -/
def getRecommendations (p : RawProvider) (fav : String) : Except String RecOutput :=
  if fav = "" then .error "Please provide ?favorite_movie=MovieTitle"
  else
    match fetchMovieByTitle p fav with
    | none => .error "Favorite movie not found"
    | some favMovie => .ok (getRecommendationsCore p favMovie)

/-- One element of the older variant's merged recommendation list (its
map literal has no Country or Awards field). -/
structure Rec0Movie where
  Title : String
  Year : String
  Genre : String
  imdbRating : String
  imdbID : String
  Why : String
deriving DecidableEq, Repr

/-- Projection of a resolved record to an older-variant entry. -/
def mkRec0Movie (level : String) (m : MovieResponse) : Rec0Movie :=
  ⟨m.Title, m.Year, m.Genre, m.IMDBRating, m.IMDBID, level⟩

/-- The comparator handed to sort.Slice by the older variant's collect. -/
def rec0Less (a b : Rec0Movie) : Bool :=
  decLtB (ratingDec b.imdbRating) (ratingDec a.imdbRating)

/-- Inner loop of the older variant's collect: skip hits already seen in
this axis or equal to the favorite's identifier, skip resolution
failures and "N/A" ratings, and append the rest (no limit check while
collecting). -/
def items0Loop (p : RawProvider) (level : String) (favID : String) :
    List SearchItem → List Rec0Movie × List String → List Rec0Movie × List String
  | [], acc => acc
  | s :: rest, acc =>
    if s.IMDBID ∈ acc.2 ∨ s.IMDBID = favID then items0Loop p level favID rest acc
    else
      match fetchMovieById p s.IMDBID with
      | none => items0Loop p level favID rest acc
      | some movie =>
        if movie.IMDBRating = "N/A" then items0Loop p level favID rest acc
        else items0Loop p level favID rest (acc.1 ++ [mkRec0Movie level movie], acc.2 ++ [s.IMDBID])

/-- Keyword loop of the older variant's collect: one search page per
keyword, with the fetch error ignored; a failed fetch leaves a nil
pointer that the following range expression dereferences, so the request
dies there (modelled as none). -/
def kw0Loop (p : RawProvider) (level : String) (favID : String) :
    List String → List Rec0Movie × List String → Option (List Rec0Movie × List String)
  | [], acc => some acc
  | kw0 :: rest, acc =>
    let kw := goTrim kw0
    if kw = "" ∨ kw = "N/A" then kw0Loop p level favID rest acc
    else
      match fetchSearchPage p kw 1 with
      | none => none
      | some r => kw0Loop p level favID rest (items0Loop p level favID r.Search acc)

/-- collect of the older variant: a fresh per-axis seen set, sort by
rating descending after collecting, truncate to the limit when longer. -/
def collect0 (p : RawProvider) (level : String) (keywords : List String)
    (limit : Nat) (favID : String) : Option (List Rec0Movie) :=
  (kw0Loop p level favID keywords ([], [])).map fun acc =>
    capAt limit (sortSlice rec0Less acc.1)

/-- The final dedup pass of the older variant: keep the first occurrence
of each identifier. -/
def dedupByID : List Rec0Movie → List String → List Rec0Movie
  | [], _ => []
  | m :: rest, seen =>
    if m.imdbID ∈ seen then dedupByID rest seen
    else m :: dedupByID rest (seen ++ [m.imdbID])

/-- The older variant's relation-search response body. -/
structure Rec0Output where
  favorite_movie : String
  recommendations : List Rec0Movie
deriving DecidableEq, Repr

/-- The relation search of the older variant: resolve the favorite, run
the per-axis collects with limit 20, concatenate the three sorted lists
and dedup by identifier.  none stands for any outcome without a result
list: the missing-parameter 400, the favorite-not-found 404, or the
request dying on a nil-pointer dereference after an ignored search
error. -/
def getRecommendationsV0 (p : RawProvider) (fav : String) : Option Rec0Output :=
  if fav = "" then none
  else
    match fetchMovieByTitle p fav with
    | none => none
    | some favMovie =>
      let genres := goSplit favMovie.Genre ','
      let directors := goSplit favMovie.Director ','
      let actors := goSplit favMovie.Actors ','
      match collect0 p "Genre" genres 20 favMovie.IMDBID,
            collect0 p "Director" directors 20 favMovie.IMDBID,
            collect0 p "Actor" actors 20 favMovie.IMDBID with
      | some g, some d, some a =>
        some ⟨favMovie.Title, dedupByID (g ++ d ++ a) []⟩
      | _, _, _ => none

/-- A request to one of the two embedded operations. -/
inductive ApiRequest where
  | byGenre (genre : String)
  | related (fav : String)
deriving DecidableEq

/-- A response from one of the two embedded operations. -/
inductive ApiResponse where
  | genreList (l : List GenreMovie)
  | recs (r : Except String RecOutput)

/-- The whole mutable process state of the service: only the key read
from the environment at startup; the seen set and the result
accumulators live inside a single request. -/
structure ServerState where
  apiKeyValue : String
deriving DecidableEq

/-- One request handled against the process state: the state is read but
never written, so it comes back unchanged. -/
def handle (p : RawProvider) (st : ServerState) :
    ApiRequest → ApiResponse × ServerState
  | .byGenre g => (.genreList (getMoviesByGenre p g), st)
  | .related f => (.recs (getRecommendations p f), st)

/-- pagesLoop instrumented with the list of page numbers for which a
search-page request is issued; identical control flow otherwise. -/
def pagesLoopT (p : RawProvider) (level : String) (limit : Nat) (kw : String) :
    Nat → Nat → CState → CState × List Nat
  | 0, _, st => (st, [])
  | fuel + 1, page, st =>
    if st.results.length < limit then
      match fetchSearchPage p kw page with
      | none =>
        let r := pagesLoopT p level limit kw fuel (page + 1) st
        (r.1, page :: r.2)
      | some sr =>
        let r := pagesLoopT p level limit kw fuel (page + 1) (itemsLoop p level limit sr.Search st)
        (r.1, page :: r.2)
    else (st, [])

/-- kwLoop instrumented with, per searched keyword, the pages requested
for it; identical control flow otherwise. -/
def kwLoopT (p : RawProvider) (level : String) (limit : Nat) :
    List String → CState → CState × List (String × List Nat)
  | [], st => (st, [])
  | kw0 :: rest, st =>
    let kw := goTrim kw0
    if kw = "" ∨ kw = "N/A" then kwLoopT p level limit rest st
    else
      let pr := pagesLoopT p level limit kw 3 1 st
      if limit ≤ pr.1.results.length then (pr.1, [(kw, pr.2)])
      else
        let r := kwLoopT p level limit rest pr.1
        (r.1, (kw, pr.2) :: r.2)

/-- genreSeedLoop instrumented with the list of seed terms for which a
search request is issued; identical control flow otherwise. -/
def genreSeedLoopT (p : RawProvider) (genre : String) :
    List String → List GenreMovie → List GenreMovie × List String
  | [], acc => (acc, [])
  | seed :: rest, acc =>
    let step :=
      match fetchSearch p seed with
      | none => acc
      | some results => genreItemLoop p genre results.Search acc
    let r := genreSeedLoopT p genre rest step
    (r.1, seed :: r.2)

/-- Observable content of one paged search call: a failed fetch and an
empty page both contribute no hits and let the loop move on. -/
def obsSearchPage (p : RawProvider) (t : String) (n : Nat) : List SearchItem :=
  match fetchSearchPage p t n with
  | none => []
  | some r => r.Search

/-- Observable content of one page-less search call of main.go. -/
def obsSearch (p : RawProvider) (t : String) : List SearchItem :=
  match fetchSearch p t with
  | none => []
  | some r => r.Search

/-- A uniform full record used by the concrete test providers below. -/
def relMovie (id rating genre : String) : MovieResponse :=
  ⟨"R", "2001", genre, "D", "A", "US", "", id, rating, "True"⟩

/-- A uniform search hit used by the concrete test providers below. -/
def relItem (id : String) : SearchItem :=
  ⟨"R", "2001", id, "movie"⟩

/-- The favorite record the concrete relation-search providers resolve:
one genre keyword "War", director field "N/A", empty actors field. -/
def favWar : MovieResponse :=
  ⟨"FavTitle", "1999", "War", "N/A", "", "US", "", "f", "9.0", "True"⟩

/-- Sixteen identifiers, enough to overflow the category cap of 15. -/
def wIds : List String :=
  ["m01", "m02", "m03", "m04", "m05", "m06", "m07", "m08",
   "m09", "m10", "m11", "m12", "m13", "m14", "m15", "m16"]

/-- Provider for the category-search cap: one seed surfaces sixteen
distinct candidates, all rated "1" in the genre "Drama". -/
def pW1 : RawProvider where
  movieById := fun id => if wIds.contains id then some (relMovie id "1" "Drama") else none
  movieByTitle := fun _ => none
  search := fun q => if q = "the" then some ⟨wIds.map relItem, "True"⟩ else none
  searchPage := fun _ _ => none

/-- Provider for the relation-search witnesses: the favorite "Fav"
resolves to favWar, keyword "War" has one hit on page one, and the
category search surfaces one "Drama" hit under seed "the". -/
def pRel : RawProvider where
  movieById := fun id =>
    if id = "r1" then some (relMovie id "7.5" "War")
    else if id = "g1" then some (relMovie id "8.0" "Drama")
    else none
  movieByTitle := fun t => if t = "Fav" then some favWar else none
  search := fun q => if q = "the" then some ⟨[relItem "g1"], "True"⟩ else some ⟨[], "True"⟩
  searchPage := fun t n =>
    if t = "War" ∧ n = 1 then some ⟨[relItem "r1"], "True"⟩ else some ⟨[], "True"⟩

/-- Provider pair for the page-failure behaviour: with failFirst set,
page one of keyword "War" fails; either way page two carries the hit
"q2".  The two members differ only in that one search-page response. -/
def pQ (failFirst : Bool) : RawProvider where
  movieById := fun id => if id = "q2" then some (relMovie id "6.0" "War") else none
  movieByTitle := fun t => if t = "Fav" then some favWar else none
  search := fun _ => none
  searchPage := fun t n =>
    if t = "War" ∧ n = 1 then (if failFirst then none else some ⟨[], "True"⟩)
    else if t = "War" ∧ n = 2 then some ⟨[relItem "q2"], "True"⟩
    else some ⟨[], "True"⟩

/-- Provider on which the category search returns the same identifier
twice: seeds "the" and "a" both surface the hit "x". -/
def pDup : RawProvider where
  movieById := fun id => if id = "x" then some (relMovie id "8.0" "Drama") else none
  movieByTitle := fun _ => none
  search := fun q =>
    if q = "the" ∨ q = "a" then some ⟨[relItem "x"], "True"⟩ else some ⟨[], "True"⟩
  searchPage := fun _ _ => none

/-- Provider whose one candidate carries the unparseable, non-sentinel
score string "great". -/
def pBadScore : RawProvider where
  movieById := fun id => if id = "b" then some (relMovie id "great" "Drama") else none
  movieByTitle := fun _ => none
  search := fun q => if q = "the" then some ⟨[relItem "b"], "True"⟩ else some ⟨[], "True"⟩
  searchPage := fun _ _ => none

/-- Identifier column of a relation-axis result list. -/
def idsR (l : List RecMovie) : List String :=
  l.map (·.imdbID)

/-- Identifier column of a category-search result list. -/
def idsG (l : List GenreMovie) : List String :=
  l.map (·.imdbID)

/-- Identifier column of an older-variant result list. -/
def ids0 (l : List Rec0Movie) : List String :=
  l.map (·.imdbID)

/-- All identifiers of a relation-search response, across the three
axis lists in order. -/
def allIds (o : RecOutput) : List String :=
  idsR o.by_genre ++ idsR o.by_director ++ idsR o.by_actor

/-- How a collect phase may change the request state: the result list
only grows, by entries whose identifiers were unseen on entry, are
marked seen on exit, and are mutually distinct; the seen set only
grows. -/
def Post (st st' : CState) : Prop :=
  (∃ new, st'.results = st.results ++ new ∧
    (∀ e ∈ new, e.imdbID ∈ st'.seen ∧ e.imdbID ∉ st.seen) ∧
    (idsR new).Nodup) ∧
  ∀ s ∈ st.seen, s ∈ st'.seen

theorem insertGo_perm {α : Type} (less : α → α → Bool) (x : α) :
    ∀ l : List α, (insertGo less x l).Perm (x :: l) := by
  intro l
  induction l with
  | nil => exact List.Perm.refl _
  | cons y ys ih =>
    unfold insertGo
    by_cases h : less x y = true
    · simp [h]
    · simp only [h, if_false]
      exact (ih.cons y).trans (List.Perm.swap x y ys)

theorem sortFold_perm {α : Type} (less : α → α → Bool) :
    ∀ (l acc : List α), (sortFold less acc l).Perm (acc ++ l) := by
  intro l
  induction l with
  | nil => intro acc; simp [sortFold]
  | cons x xs ih =>
    intro acc
    unfold sortFold
    refine (ih (insertGo less x acc)).trans ?_
    refine (((insertGo_perm less x acc).append_right xs).trans ?_)
    exact List.perm_middle.symm

theorem sortSlice_perm {α : Type} (less : α → α → Bool) (l : List α) :
    (sortSlice less l).Perm l :=
  sortFold_perm less l []

theorem mem_sortSlice {α : Type} {less : α → α → Bool} {l : List α} {a : α} :
    a ∈ sortSlice less l ↔ a ∈ l :=
  (sortSlice_perm less l).mem_iff

theorem length_sortSlice {α : Type} (less : α → α → Bool) (l : List α) :
    (sortSlice less l).length = l.length :=
  (sortSlice_perm less l).length_eq

theorem insertGo_pairwise {α : Type} (key : α → ℚ) (lessB : α → α → Bool)
    (hless : ∀ a b, lessB a b = true ↔ key b < key a) (x : α) :
    ∀ {l : List α}, List.Pairwise (fun a b => key b ≤ key a) l →
      List.Pairwise (fun a b => key b ≤ key a) (insertGo lessB x l) := by
  intro l
  induction l with
  | nil => intro _; simp [insertGo]
  | cons y ys ih =>
    intro hp
    rcases List.pairwise_cons.mp hp with ⟨hy, hys⟩
    unfold insertGo
    by_cases h : lessB x y = true
    · simp only [h, if_true]
      refine List.pairwise_cons.mpr ⟨?_, hp⟩
      intro z hz
      rcases List.mem_cons.mp hz with hzy | hz
      · rw [hzy]; exact le_of_lt ((hless x y).mp h)
      · exact (hy z hz).trans (le_of_lt ((hless x y).mp h))
    · simp only [h, if_false]
      refine List.pairwise_cons.mpr ⟨?_, ih hys⟩
      intro z hz
      have hz' : z ∈ x :: ys := (insertGo_perm lessB x ys).mem_iff.mp hz
      rcases List.mem_cons.mp hz' with hzx | hz'
      · rw [hzx]; exact le_of_not_lt fun hlt => h ((hless x y).mpr hlt)
      · exact hy z hz'

theorem sortFold_pairwise {α : Type} (key : α → ℚ) (lessB : α → α → Bool)
    (hless : ∀ a b, lessB a b = true ↔ key b < key a) :
    ∀ (l acc : List α), List.Pairwise (fun a b => key b ≤ key a) acc →
      List.Pairwise (fun a b => key b ≤ key a) (sortFold lessB acc l) := by
  intro l
  induction l with
  | nil => intro acc h; exact h
  | cons x xs ih =>
    intro acc h
    exact ih (insertGo lessB x acc) (insertGo_pairwise key lessB hless x h)

theorem sortSlice_pairwise {α : Type} (key : α → ℚ) (lessB : α → α → Bool)
    (hless : ∀ a b, lessB a b = true ↔ key b < key a) (l : List α) :
    List.Pairwise (fun a b => key b ≤ key a) (sortSlice lessB l) :=
  sortFold_pairwise key lessB hless l [] (List.Pairwise.nil)

theorem parseDecCore_den_pos {neg : Bool} {cs : List Char} {v : DecValue}
    (h : parseDecCore neg cs = some v) : 0 < v.den := by
  unfold parseDecCore at h
  split at h
  · split at h
    · exact absurd h (by simp)
    · cases h; exact Nat.one_pos
  · split at h
    · cases h
      exact pow_pos (by norm_num) _
    · exact absurd h (by simp)
  · exact absurd h (by simp)

theorem parseDec_den_pos {s : String} {v : DecValue} (h : parseDec s = some v) :
    0 < v.den := by
  unfold parseDec at h
  split at h
  · exact parseDecCore_den_pos h
  · exact parseDecCore_den_pos h
  · exact parseDecCore_den_pos h

theorem ratingDec_den_pos (s : String) : 0 < (ratingDec s).den := by
  unfold ratingDec
  cases hp : parseDec s with
  | none => exact Nat.one_pos
  | some v => exact parseDec_den_pos hp

theorem decLtB_iff {x y : DecValue} (hx : 0 < x.den) (hy : 0 < y.den) :
    decLtB x y = true ↔ toQ x < toQ y := by
  have hx' : (0 : ℚ) < (x.den : ℚ) := by exact_mod_cast hx
  have hy' : (0 : ℚ) < (y.den : ℚ) := by exact_mod_cast hy
  unfold decLtB toQ
  rw [decide_eq_true_eq, div_lt_div_iff₀ hx' hy']
  constructor
  · intro h; exact_mod_cast h
  · intro h; exact_mod_cast h

theorem genreLess_iff (a b : GenreMovie) :
    genreLess a b = true ↔ ratingVal b.imdbRating < ratingVal a.imdbRating := by
  unfold genreLess ratingVal
  exact decLtB_iff (ratingDec_den_pos _) (ratingDec_den_pos _)

theorem recLess_iff (a b : RecMovie) :
    recLess a b = true ↔ ratingVal b.imdbRating < ratingVal a.imdbRating := by
  unfold recLess ratingVal
  exact decLtB_iff (ratingDec_den_pos _) (ratingDec_den_pos _)

theorem rec0Less_iff (a b : Rec0Movie) :
    rec0Less a b = true ↔ ratingVal b.imdbRating < ratingVal a.imdbRating := by
  unfold rec0Less ratingVal
  exact decLtB_iff (ratingDec_den_pos _) (ratingDec_den_pos _)

theorem pairwise_take_drop {α : Type} {R : α → α → Prop} {l : List α}
    (h : List.Pairwise R l) (n : ℕ) :
    ∀ x ∈ l.take n, ∀ y ∈ l.drop n, R x y := by
  rw [← List.take_append_drop n l] at h
  exact (List.pairwise_append.mp h).2.2

theorem genreItemLoop_prop {p : RawProvider} {genre : String} :
    ∀ {items : List SearchItem} {acc : List GenreMovie},
      (∀ e ∈ acc, e.imdbRating ≠ "N/A" ∧ genreMatches e.Genre genre = true) →
      ∀ e ∈ genreItemLoop p genre items acc,
        e.imdbRating ≠ "N/A" ∧ genreMatches e.Genre genre = true := by
  intro items
  induction items with
  | nil => intro acc hacc e he; exact hacc e he
  | cons item rest ih =>
    intro acc hacc
    unfold genreItemLoop
    cases hm : fetchMovieById p item.IMDBID with
    | none => exact ih hacc
    | some movie =>
      dsimp only
      by_cases hbad : movie.Response = "False" ∨ movie.IMDBRating = "N/A"
      · rw [if_pos hbad]
        exact ih hacc
      · rw [if_neg hbad]
        by_cases hg : genreMatches movie.Genre genre = true
        · rw [if_pos hg]
          refine ih ?_
          intro e he
          rcases List.mem_append.mp he with h1 | h2
          · exact hacc e h1
          · have he2 : e = mkGenreMovie movie := List.mem_singleton.mp h2
            rw [he2]
            exact ⟨fun hna => hbad (Or.inr hna), hg⟩
        · rw [if_neg hg]
          exact ih hacc

theorem genreSeedLoop_prop {p : RawProvider} {genre : String} :
    ∀ {seeds : List String} {acc : List GenreMovie},
      (∀ e ∈ acc, e.imdbRating ≠ "N/A" ∧ genreMatches e.Genre genre = true) →
      ∀ e ∈ genreSeedLoop p genre seeds acc,
        e.imdbRating ≠ "N/A" ∧ genreMatches e.Genre genre = true := by
  intro seeds
  induction seeds with
  | nil => intro acc hacc e he; exact hacc e he
  | cons seed rest ih =>
    intro acc hacc
    unfold genreSeedLoop
    cases hs : fetchSearch p seed with
    | none => exact ih hacc
    | some results => exact ih (genreItemLoop_prop hacc)

theorem capAt_length {α : Type} (n : Nat) (l : List α) :
    (capAt n l).length ≤ n ∨ capAt n l = l := by
  unfold capAt
  by_cases h : n < l.length
  · rw [if_pos h]
    left
    simp [List.length_take]
  · rw [if_neg h]
    right
    rfl

theorem capAt_length_le {α : Type} (n : Nat) (l : List α) (h : l.length ≤ n) :
    (capAt n l).length ≤ n := by
  rcases capAt_length n l with h1 | h1
  · exact h1
  · rw [h1]; exact h

theorem capAt_subset {α : Type} {n : Nat} {l : List α} {x : α}
    (hx : x ∈ capAt n l) : x ∈ l := by
  unfold capAt at hx
  by_cases h : n < l.length
  · rw [if_pos h] at hx
    exact List.mem_of_mem_take hx
  · rw [if_neg h] at hx
    exact hx

theorem capAt_sorted {α : Type} {R : α → α → Prop} {n : Nat} {l : List α}
    (h : List.Pairwise R l) : List.Pairwise R (capAt n l) := by
  unfold capAt
  by_cases hn : n < l.length
  · rw [if_pos hn]
    exact h.sublist (List.take_sublist n l)
  · rw [if_neg hn]
    exact h

theorem capAt_outside {α : Type} {R : α → α → Prop} {n : Nat} {l : List α}
    (h : List.Pairwise R l) {x : α} (hx : x ∈ l) (hnot : x ∉ capAt n l) :
    ∀ y ∈ capAt n l, R y x := by
  unfold capAt at hnot ⊢
  by_cases hn : n < l.length
  · rw [if_pos hn] at hnot ⊢
    have hxd : x ∈ l.drop n := by
      have hsplit : x ∈ l.take n ++ l.drop n := by
        rw [List.take_append_drop]
        exact hx
      rcases List.mem_append.mp hsplit with h1 | h1
      · exact absurd h1 hnot
      · exact h1
    intro y hy
    exact pairwise_take_drop h n y hy x hxd
  · rw [if_neg hn] at hnot
    exact absurd hx hnot

theorem getMoviesByGenre_mem {p : RawProvider} {genre : String} {e : GenreMovie}
    (he : e ∈ getMoviesByGenre p genre) :
    e ∈ genreSeedLoop p genre searchSeeds [] := by
  unfold getMoviesByGenre at he
  exact mem_sortSlice.mp (capAt_subset he)

theorem getMoviesByGenre_prop {p : RawProvider} {genre : String} :
    ∀ e ∈ getMoviesByGenre p genre,
      e.imdbRating ≠ "N/A" ∧ genreMatches e.Genre genre = true := by
  intro e he
  exact genreSeedLoop_prop (fun e h => absurd h (List.not_mem_nil e))
    e (getMoviesByGenre_mem he)

theorem getMoviesByGenre_sorted (p : RawProvider) (genre : String) :
    List.Pairwise (fun a b => ratingVal b.imdbRating ≤ ratingVal a.imdbRating)
      (getMoviesByGenre p genre) := by
  unfold getMoviesByGenre
  exact capAt_sorted (@sortSlice_pairwise GenreMovie (fun e => ratingVal e.imdbRating)
    genreLess genreLess_iff (genreSeedLoop p genre searchSeeds []))

theorem getMoviesByGenre_cap_after_rank {p : RawProvider} {genre : String}
    {x : GenreMovie} (hx : x ∈ genreSeedLoop p genre searchSeeds [])
    (hnot : x ∉ getMoviesByGenre p genre) :
    ∀ y ∈ getMoviesByGenre p genre,
      ratingVal x.imdbRating ≤ ratingVal y.imdbRating := by
  have hsorted := @sortSlice_pairwise GenreMovie (fun e => ratingVal e.imdbRating)
    genreLess genreLess_iff (genreSeedLoop p genre searchSeeds [])
  unfold getMoviesByGenre at hnot ⊢
  exact capAt_outside hsorted (mem_sortSlice.mpr hx) hnot

theorem fetchMovieById_coherent {p : RawProvider} (hp : Coherent p) {id : String}
    {m : MovieResponse} (h : fetchMovieById p id = some m) : m.IMDBID = id := by
  unfold fetchMovieById at h
  cases hm : p.movieById id with
  | none => rw [hm] at h; cases h
  | some m0 =>
    rw [hm] at h
    dsimp only at h
    by_cases hr : m0.Response = "False"
    · rw [if_pos hr] at h; cases h
    · rw [if_neg hr] at h
      injection h with h2
      rw [← h2]
      exact hp id m0 hm

theorem Post_refl (st : CState) : Post st st :=
  ⟨⟨[], by simp, by simp, List.nodup_nil⟩, fun _ hs => hs⟩

theorem idsR_append (a b : List RecMovie) : idsR (a ++ b) = idsR a ++ idsR b :=
  List.map_append _ a b

theorem Post_trans {st1 st2 st3 : CState} (h12 : Post st1 st2) (h23 : Post st2 st3) :
    Post st1 st3 := by
  obtain ⟨⟨n1, hr1, hn1, hd1⟩, hs1⟩ := h12
  obtain ⟨⟨n2, hr2, hn2, hd2⟩, hs2⟩ := h23
  refine ⟨⟨n1 ++ n2, ?_, ?_, ?_⟩, fun s hs => hs2 s (hs1 s hs)⟩
  · rw [hr2, hr1, List.append_assoc]
  · intro e he
    rcases List.mem_append.mp he with h | h
    · rcases hn1 e h with ⟨ha, hb⟩
      exact ⟨hs2 _ ha, hb⟩
    · rcases hn2 e h with ⟨ha, hb⟩
      exact ⟨ha, fun hc => hb (hs1 _ hc)⟩
  · rw [idsR_append]
    refine hd1.append hd2 (List.disjoint_left.mpr ?_)
    intro i hi1 hi2
    rcases List.mem_map.mp hi1 with ⟨e1, he1, hie1⟩
    rcases List.mem_map.mp hi2 with ⟨e2, he2, hie2⟩
    have h1 : i ∈ st2.seen := by rw [← hie1]; exact (hn1 e1 he1).1
    have h2 : i ∉ st2.seen := by rw [← hie2]; exact (hn2 e2 he2).2
    exact h2 h1

theorem itemsLoop_post {p : RawProvider} (hp : Coherent p) (level : String) (limit : Nat) :
    ∀ (items : List SearchItem) (st : CState), Post st (itemsLoop p level limit items st) := by
  intro items
  induction items with
  | nil => intro st; exact Post_refl st
  | cons s rest ih =>
    intro st
    unfold itemsLoop
    by_cases hseen : s.IMDBID ∈ st.seen
    · rw [if_pos hseen]
      exact ih st
    · rw [if_neg hseen]
      cases hm : fetchMovieById p s.IMDBID with
      | none => exact ih st
      | some movie =>
        dsimp only
        by_cases hna : movie.IMDBRating = "N/A"
        · rw [if_pos hna]
          exact ih st
        · rw [if_neg hna]
          have hid : (mkRecMovie level movie).imdbID = s.IMDBID :=
            fetchMovieById_coherent hp hm
          have hpost1 : Post st ⟨st.results ++ [mkRecMovie level movie], st.seen ++ [s.IMDBID]⟩ := by
            refine ⟨⟨[mkRecMovie level movie], rfl, ?_, by simp [idsR]⟩,
              fun t ht => List.mem_append_left _ ht⟩
            intro e he
            have he' : e = mkRecMovie level movie := List.mem_singleton.mp he
            rw [he', hid]
            exact ⟨List.mem_append_right _ (List.mem_singleton.mpr rfl), hseen⟩
          by_cases hlim : limit ≤ (st.results ++ [mkRecMovie level movie]).length
          · rw [if_pos hlim]
            exact hpost1
          · rw [if_neg hlim]
            exact Post_trans hpost1 (ih _)

theorem pagesLoop_post {p : RawProvider} (hp : Coherent p) (level : String) (limit : Nat)
    (kw : String) :
    ∀ (fuel page : Nat) (st : CState), Post st (pagesLoop p level limit kw fuel page st) := by
  intro fuel
  induction fuel with
  | zero => intro page st; exact Post_refl st
  | succ n ih =>
    intro page st
    unfold pagesLoop
    by_cases hlt : st.results.length < limit
    · rw [if_pos hlt]
      cases hsr : fetchSearchPage p kw page with
      | none => exact ih (page + 1) st
      | some r =>
        dsimp only
        exact Post_trans (itemsLoop_post hp level limit r.Search st) (ih (page + 1) _)
    · rw [if_neg hlt]
      exact Post_refl st

theorem kwLoop_post {p : RawProvider} (hp : Coherent p) (level : String) (limit : Nat) :
    ∀ (keywords : List String) (st : CState), Post st (kwLoop p level limit keywords st) := by
  intro keywords
  induction keywords with
  | nil => intro st; exact Post_refl st
  | cons kw0 rest ih =>
    intro st
    unfold kwLoop
    by_cases hskip : goTrim kw0 = "" ∨ goTrim kw0 = "N/A"
    · rw [if_pos hskip]
      exact ih st
    · rw [if_neg hskip]
      dsimp only
      by_cases hlim : limit ≤ (pagesLoop p level limit (goTrim kw0) 3 1 st).results.length
      · rw [if_pos hlim]
        exact pagesLoop_post hp level limit (goTrim kw0) 3 1 st
      · rw [if_neg hlim]
        exact Post_trans (pagesLoop_post hp level limit (goTrim kw0) 3 1 st) (ih _)

theorem idsR_sortSlice_perm (l : List RecMovie) :
    (idsR (sortSlice recLess l)).Perm (idsR l) := by
  unfold idsR
  exact (sortSlice_perm recLess l).map _

theorem collect_spec {p : RawProvider} (hp : Coherent p) (level : String)
    (keywords : List String) (limit : Nat) (seen : List String) :
    (idsR (collect p level keywords limit seen).1).Nodup ∧
    (∀ i ∈ idsR (collect p level keywords limit seen).1,
        i ∈ (collect p level keywords limit seen).2 ∧ i ∉ seen) ∧
    (∀ s ∈ seen, s ∈ (collect p level keywords limit seen).2) := by
  obtain ⟨⟨new, hr, hn, hd⟩, hs⟩ := kwLoop_post hp level limit keywords ⟨[], seen⟩
  have hr' : (kwLoop p level limit keywords ⟨[], seen⟩).results = new := by
    rw [hr]
    exact List.nil_append new
  have hperm : (idsR (collect p level keywords limit seen).1).Perm (idsR new) := by
    unfold collect
    rw [← hr']
    exact idsR_sortSlice_perm _
  refine ⟨hperm.nodup_iff.mpr hd, ?_, fun t ht => hs t ht⟩
  intro i hi
  have hi' : i ∈ idsR new := hperm.mem_iff.mp hi
  rcases List.mem_map.mp hi' with ⟨e, he, hie⟩
  rcases hn e he with ⟨ha, hb⟩
  rw [← hie]
  exact ⟨ha, hb⟩

theorem itemsLoop_len {p : RawProvider} {level : String} {limit : Nat} :
    ∀ {items : List SearchItem} {st : CState}, st.results.length < limit →
      (itemsLoop p level limit items st).results.length ≤ limit := by
  intro items
  induction items with
  | nil => intro st h; exact le_of_lt h
  | cons s rest ih =>
    intro st h
    unfold itemsLoop
    by_cases hseen : s.IMDBID ∈ st.seen
    · rw [if_pos hseen]
      exact ih h
    · rw [if_neg hseen]
      cases hm : fetchMovieById p s.IMDBID with
      | none => exact ih h
      | some movie =>
        dsimp only
        by_cases hna : movie.IMDBRating = "N/A"
        · rw [if_pos hna]
          exact ih h
        · rw [if_neg hna]
          have hlen1 : (st.results ++ [mkRecMovie level movie]).length = st.results.length + 1 := by
            simp
          by_cases hlim : limit ≤ (st.results ++ [mkRecMovie level movie]).length
          · rw [if_pos hlim]
            rw [hlen1]
            exact Nat.succ_le_of_lt h
          · rw [if_neg hlim]
            exact ih (Nat.lt_of_not_le hlim)

theorem pagesLoop_len {p : RawProvider} {level : String} {limit : Nat} {kw : String} :
    ∀ {fuel page : Nat} {st : CState}, st.results.length ≤ limit →
      (pagesLoop p level limit kw fuel page st).results.length ≤ limit := by
  intro fuel
  induction fuel with
  | zero => intro page st h; exact h
  | succ n ih =>
    intro page st h
    unfold pagesLoop
    by_cases hlt : st.results.length < limit
    · rw [if_pos hlt]
      cases hsr : fetchSearchPage p kw page with
      | none => exact ih h
      | some r =>
        dsimp only
        exact ih (itemsLoop_len hlt)
    · rw [if_neg hlt]
      exact h

theorem kwLoop_len {p : RawProvider} {level : String} {limit : Nat} :
    ∀ {keywords : List String} {st : CState}, st.results.length ≤ limit →
      (kwLoop p level limit keywords st).results.length ≤ limit := by
  intro keywords
  induction keywords with
  | nil => intro st h; exact h
  | cons kw0 rest ih =>
    intro st h
    unfold kwLoop
    by_cases hskip : goTrim kw0 = "" ∨ goTrim kw0 = "N/A"
    · rw [if_pos hskip]
      exact ih h
    · rw [if_neg hskip]
      dsimp only
      by_cases hlim : limit ≤ (pagesLoop p level limit (goTrim kw0) 3 1 st).results.length
      · rw [if_pos hlim]
        exact pagesLoop_len h
      · rw [if_neg hlim]
        exact ih (pagesLoop_len h)

theorem collect_len (p : RawProvider) (level : String) (keywords : List String)
    (limit : Nat) (seen : List String) :
    (collect p level keywords limit seen).1.length ≤ limit := by
  unfold collect
  rw [length_sortSlice]
  exact kwLoop_len (Nat.zero_le limit)

theorem itemsLoop_rating {p : RawProvider} {level : String} {limit : Nat} :
    ∀ {items : List SearchItem} {st : CState},
      (∀ e ∈ st.results, e.imdbRating ≠ "N/A") →
      ∀ e ∈ (itemsLoop p level limit items st).results, e.imdbRating ≠ "N/A" := by
  intro items
  induction items with
  | nil => intro st h; exact h
  | cons s rest ih =>
    intro st h
    unfold itemsLoop
    by_cases hseen : s.IMDBID ∈ st.seen
    · rw [if_pos hseen]
      exact ih h
    · rw [if_neg hseen]
      cases hm : fetchMovieById p s.IMDBID with
      | none => exact ih h
      | some movie =>
        dsimp only
        by_cases hna : movie.IMDBRating = "N/A"
        · rw [if_pos hna]
          exact ih h
        · rw [if_neg hna]
          have hstep : ∀ e ∈ st.results ++ [mkRecMovie level movie], e.imdbRating ≠ "N/A" := by
            intro e he
            rcases List.mem_append.mp he with h1 | h2
            · exact h e h1
            · rw [List.mem_singleton.mp h2]
              exact hna
          by_cases hlim : limit ≤ (st.results ++ [mkRecMovie level movie]).length
          · rw [if_pos hlim]
            exact hstep
          · rw [if_neg hlim]
            exact ih hstep

theorem pagesLoop_rating {p : RawProvider} {level : String} {limit : Nat} {kw : String} :
    ∀ {fuel page : Nat} {st : CState},
      (∀ e ∈ st.results, e.imdbRating ≠ "N/A") →
      ∀ e ∈ (pagesLoop p level limit kw fuel page st).results, e.imdbRating ≠ "N/A" := by
  intro fuel
  induction fuel with
  | zero => intro page st h; exact h
  | succ n ih =>
    intro page st h
    unfold pagesLoop
    by_cases hlt : st.results.length < limit
    · rw [if_pos hlt]
      cases hsr : fetchSearchPage p kw page with
      | none => exact ih h
      | some r =>
        dsimp only
        exact ih (itemsLoop_rating h)
    · rw [if_neg hlt]
      exact h

theorem kwLoop_rating {p : RawProvider} {level : String} {limit : Nat} :
    ∀ {keywords : List String} {st : CState},
      (∀ e ∈ st.results, e.imdbRating ≠ "N/A") →
      ∀ e ∈ (kwLoop p level limit keywords st).results, e.imdbRating ≠ "N/A" := by
  intro keywords
  induction keywords with
  | nil => intro st h; exact h
  | cons kw0 rest ih =>
    intro st h
    unfold kwLoop
    by_cases hskip : goTrim kw0 = "" ∨ goTrim kw0 = "N/A"
    · rw [if_pos hskip]
      exact ih h
    · rw [if_neg hskip]
      dsimp only
      by_cases hlim : limit ≤ (pagesLoop p level limit (goTrim kw0) 3 1 st).results.length
      · rw [if_pos hlim]
        exact pagesLoop_rating h
      · rw [if_neg hlim]
        exact ih (pagesLoop_rating h)

theorem collect_rating (p : RawProvider) (level : String) (keywords : List String)
    (limit : Nat) (seen : List String) :
    ∀ e ∈ (collect p level keywords limit seen).1, e.imdbRating ≠ "N/A" := by
  intro e he
  have he' : e ∈ (kwLoop p level limit keywords ⟨[], seen⟩).results :=
    mem_sortSlice.mp he
  exact kwLoop_rating (fun e h => absurd h (List.not_mem_nil e)) e he'

theorem collect_sorted (p : RawProvider) (level : String) (keywords : List String)
    (limit : Nat) (seen : List String) :
    List.Pairwise (fun a b => ratingVal b.imdbRating ≤ ratingVal a.imdbRating)
      (collect p level keywords limit seen).1 :=
  @sortSlice_pairwise RecMovie (fun e => ratingVal e.imdbRating) recLess recLess_iff
    (kwLoop p level limit keywords ⟨[], seen⟩).results

theorem items0Loop_prop {p : RawProvider} {level favID : String} (hp : Coherent p) :
    ∀ {items : List SearchItem} {acc : List Rec0Movie × List String},
      (∀ e ∈ acc.1, e.imdbID ≠ favID) →
      ∀ e ∈ (items0Loop p level favID items acc).1, e.imdbID ≠ favID := by
  intro items
  induction items with
  | nil => intro acc h; exact h
  | cons s rest ih =>
    intro acc h
    unfold items0Loop
    by_cases hskip : s.IMDBID ∈ acc.2 ∨ s.IMDBID = favID
    · rw [if_pos hskip]
      exact ih h
    · rw [if_neg hskip]
      cases hm : fetchMovieById p s.IMDBID with
      | none => exact ih h
      | some movie =>
        dsimp only
        by_cases hna : movie.IMDBRating = "N/A"
        · rw [if_pos hna]
          exact ih h
        · rw [if_neg hna]
          refine ih ?_
          intro e he
          rcases List.mem_append.mp he with h1 | h2
          · exact h e h1
          · rw [List.mem_singleton.mp h2]
            have hid : (mkRec0Movie level movie).imdbID = s.IMDBID :=
              fetchMovieById_coherent hp hm
            rw [hid]
            exact fun hfa => hskip (Or.inr hfa)

theorem kw0Loop_prop {p : RawProvider} {level favID : String} (hp : Coherent p) :
    ∀ {keywords : List String} {acc out : List Rec0Movie × List String},
      kw0Loop p level favID keywords acc = some out →
      (∀ e ∈ acc.1, e.imdbID ≠ favID) →
      ∀ e ∈ out.1, e.imdbID ≠ favID := by
  intro keywords
  induction keywords with
  | nil =>
    intro acc out h hacc
    unfold kw0Loop at h
    injection h with h2
    rw [← h2]
    exact hacc
  | cons kw0 rest ih =>
    intro acc out h hacc
    unfold kw0Loop at h
    by_cases hskip : goTrim kw0 = "" ∨ goTrim kw0 = "N/A"
    · rw [if_pos hskip] at h
      exact ih h hacc
    · rw [if_neg hskip] at h
      cases hsr : fetchSearchPage p (goTrim kw0) 1 with
      | none => rw [hsr] at h; cases h
      | some r =>
        rw [hsr] at h
        dsimp only at h
        exact ih h (items0Loop_prop hp hacc)

theorem collect0_prop {p : RawProvider} {level favID : String} (hp : Coherent p)
    {keywords : List String} {limit : Nat} {l : List Rec0Movie}
    (h : collect0 p level keywords limit favID = some l) :
    ∀ e ∈ l, e.imdbID ≠ favID := by
  unfold collect0 at h
  cases hk : kw0Loop p level favID keywords ([], []) with
  | none => rw [hk] at h; cases h
  | some acc =>
    rw [hk] at h
    dsimp only [Option.map] at h
    injection h with h2
    intro e he
    rw [← h2] at he
    have he' : e ∈ acc.1 := mem_sortSlice.mp (capAt_subset he)
    exact kw0Loop_prop hp hk (fun e h => absurd h (List.not_mem_nil e)) e he'

theorem dedupByID_subset :
    ∀ {l : List Rec0Movie} {seen : List String} {e : Rec0Movie},
      e ∈ dedupByID l seen → e ∈ l := by
  intro l
  induction l with
  | nil => intro seen e he; cases he
  | cons m rest ih =>
    intro seen e he
    unfold dedupByID at he
    by_cases hs : m.imdbID ∈ seen
    · rw [if_pos hs] at he
      exact List.mem_cons_of_mem m (ih he)
    · rw [if_neg hs] at he
      rcases List.mem_cons.mp he with h1 | h2
      · rw [h1]; exact List.mem_cons_self m rest
      · exact List.mem_cons_of_mem m (ih h2)

theorem dedupByID_nodup :
    ∀ (l : List Rec0Movie) (seen : List String),
      (ids0 (dedupByID l seen)).Nodup ∧ ∀ e ∈ dedupByID l seen, e.imdbID ∉ seen := by
  intro l
  induction l with
  | nil => intro seen; exact ⟨List.nodup_nil, fun e he => absurd he (List.not_mem_nil e)⟩
  | cons m rest ih =>
    intro seen
    unfold dedupByID
    by_cases hs : m.imdbID ∈ seen
    · rw [if_pos hs]
      exact ih seen
    · rw [if_neg hs]
      obtain ⟨ihn, ihs⟩ := ih (seen ++ [m.imdbID])
      constructor
      · unfold ids0
        rw [List.map_cons]
        refine List.nodup_cons.mpr ⟨?_, ihn⟩
        intro hmem
        rcases List.mem_map.mp hmem with ⟨e, he, hie⟩
        have : e.imdbID ∉ seen ++ [m.imdbID] := ihs e he
        exact this (by rw [hie]; exact List.mem_append_right _ (List.mem_singleton.mpr rfl))
      · intro e he
        rcases List.mem_cons.mp he with h1 | h2
        · rw [h1]; exact hs
        · intro hc
          exact ihs e h2 (List.mem_append_left _ hc)

theorem itemsLoop_congr {p p' : RawProvider} (hmb : p.movieById = p'.movieById)
    (level : String) (limit : Nat) :
    ∀ (items : List SearchItem) (st : CState),
      itemsLoop p level limit items st = itemsLoop p' level limit items st := by
  intro items
  induction items with
  | nil => intro st; rfl
  | cons s rest ih =>
    intro st
    have hf : fetchMovieById p s.IMDBID = fetchMovieById p' s.IMDBID := by
      unfold fetchMovieById
      rw [hmb]
    unfold itemsLoop
    by_cases hseen : s.IMDBID ∈ st.seen
    · rw [if_pos hseen, if_pos hseen]
      exact ih st
    · rw [if_neg hseen, if_neg hseen, ← hf]
      cases hm : fetchMovieById p s.IMDBID with
      | none => exact ih st
      | some movie =>
        dsimp only
        by_cases hna : movie.IMDBRating = "N/A"
        · rw [if_pos hna, if_pos hna]
          exact ih st
        · rw [if_neg hna, if_neg hna]
          by_cases hlim : limit ≤ (st.results ++ [mkRecMovie level movie]).length
          · rw [if_pos hlim, if_pos hlim]
          · rw [if_neg hlim, if_neg hlim]
            exact ih _

theorem pagesLoop_succ_none {p : RawProvider} {level : String} {limit : Nat}
    {kw : String} {fuel page : Nat} {st : CState}
    (hlt : st.results.length < limit) (h : fetchSearchPage p kw page = none) :
    pagesLoop p level limit kw (fuel + 1) page st =
      pagesLoop p level limit kw fuel (page + 1) st := by
  conv_lhs => unfold pagesLoop
  rw [if_pos hlt, h]

theorem pagesLoop_succ_some {p : RawProvider} {level : String} {limit : Nat}
    {kw : String} {fuel page : Nat} {st : CState} {r : SearchResults}
    (hlt : st.results.length < limit) (h : fetchSearchPage p kw page = some r) :
    pagesLoop p level limit kw (fuel + 1) page st =
      pagesLoop p level limit kw fuel (page + 1) (itemsLoop p level limit r.Search st) := by
  conv_lhs => unfold pagesLoop
  rw [if_pos hlt, h]

theorem pagesLoop_succ_stop {p : RawProvider} {level : String} {limit : Nat}
    {kw : String} {fuel page : Nat} {st : CState}
    (hlt : ¬ st.results.length < limit) :
    pagesLoop p level limit kw (fuel + 1) page st = st := by
  conv_lhs => unfold pagesLoop
  rw [if_neg hlt]

theorem itemsLoop_nil (p : RawProvider) (level : String) (limit : Nat) (st : CState) :
    itemsLoop p level limit [] st = st :=
  rfl

theorem pagesLoop_congr {p p' : RawProvider} (hmb : p.movieById = p'.movieById)
    (hobs : ∀ t n, obsSearchPage p t n = obsSearchPage p' t n)
    (level : String) (limit : Nat) (kw : String) :
    ∀ (fuel page : Nat) (st : CState),
      pagesLoop p level limit kw fuel page st = pagesLoop p' level limit kw fuel page st := by
  intro fuel
  induction fuel with
  | zero => intro page st; rfl
  | succ n ih =>
    intro page st
    by_cases hlt : st.results.length < limit
    · have hob := hobs kw page
      unfold obsSearchPage at hob
      cases hsr : fetchSearchPage p kw page with
      | none =>
        cases hsr' : fetchSearchPage p' kw page with
        | none =>
          rw [pagesLoop_succ_none hlt hsr, pagesLoop_succ_none hlt hsr']
          exact ih (page + 1) st
        | some r' =>
          rw [hsr, hsr'] at hob
          dsimp only at hob
          rw [pagesLoop_succ_none hlt hsr, pagesLoop_succ_some hlt hsr', ← hob,
            itemsLoop_nil]
          exact ih (page + 1) st
      | some r =>
        cases hsr' : fetchSearchPage p' kw page with
        | none =>
          rw [hsr, hsr'] at hob
          dsimp only at hob
          rw [pagesLoop_succ_some hlt hsr, pagesLoop_succ_none hlt hsr', hob,
            itemsLoop_nil]
          exact ih (page + 1) st
        | some r' =>
          rw [hsr, hsr'] at hob
          dsimp only at hob
          rw [pagesLoop_succ_some hlt hsr, pagesLoop_succ_some hlt hsr', hob,
            itemsLoop_congr hmb]
          exact ih (page + 1) _
    · rw [pagesLoop_succ_stop hlt, pagesLoop_succ_stop hlt]

theorem kwLoop_congr {p p' : RawProvider} (hmb : p.movieById = p'.movieById)
    (hobs : ∀ t n, obsSearchPage p t n = obsSearchPage p' t n)
    (level : String) (limit : Nat) :
    ∀ (keywords : List String) (st : CState),
      kwLoop p level limit keywords st = kwLoop p' level limit keywords st := by
  intro keywords
  induction keywords with
  | nil => intro st; rfl
  | cons kw0 rest ih =>
    intro st
    unfold kwLoop
    by_cases hskip : goTrim kw0 = "" ∨ goTrim kw0 = "N/A"
    · rw [if_pos hskip, if_pos hskip]
      exact ih st
    · rw [if_neg hskip, if_neg hskip]
      dsimp only
      rw [← pagesLoop_congr hmb hobs level limit (goTrim kw0) 3 1 st]
      by_cases hlim : limit ≤ (pagesLoop p level limit (goTrim kw0) 3 1 st).results.length
      · rw [if_pos hlim, if_pos hlim]
      · rw [if_neg hlim, if_neg hlim]
        exact ih _

theorem collect_congr {p p' : RawProvider} (hmb : p.movieById = p'.movieById)
    (hobs : ∀ t n, obsSearchPage p t n = obsSearchPage p' t n)
    (level : String) (keywords : List String) (limit : Nat) (seen : List String) :
    collect p level keywords limit seen = collect p' level keywords limit seen := by
  unfold collect
  rw [kwLoop_congr hmb hobs]

theorem getRecommendations_congr {p p' : RawProvider}
    (hmb : p.movieById = p'.movieById) (hmt : p.movieByTitle = p'.movieByTitle)
    (hobs : ∀ t n, obsSearchPage p t n = obsSearchPage p' t n) (fav : String) :
    getRecommendations p fav = getRecommendations p' fav := by
  have hcore : ∀ favM, getRecommendationsCore p favM = getRecommendationsCore p' favM := by
    intro favM
    unfold getRecommendationsCore
    dsimp only
    rw [collect_congr hmb hobs "Genre" (goSplit favM.Genre ',') 5 [favM.IMDBID]]
    rw [collect_congr hmb hobs "Director" (goSplit favM.Director ',') 5 _]
    rw [collect_congr hmb hobs "Actor" (goSplit favM.Actors ',') 5 _]
  have hft : fetchMovieByTitle p fav = fetchMovieByTitle p' fav := by
    unfold fetchMovieByTitle
    rw [hmt]
  unfold getRecommendations
  by_cases hfe : fav = ""
  · rw [if_pos hfe, if_pos hfe]
  · rw [if_neg hfe, if_neg hfe, ← hft]
    cases hm : fetchMovieByTitle p fav with
    | none => rfl
    | some favM =>
      dsimp only
      rw [hcore favM]

theorem genreItemLoop_congr {p p' : RawProvider} (hmb : p.movieById = p'.movieById)
    (genre : String) :
    ∀ (items : List SearchItem) (acc : List GenreMovie),
      genreItemLoop p genre items acc = genreItemLoop p' genre items acc := by
  intro items
  induction items with
  | nil => intro acc; rfl
  | cons item rest ih =>
    intro acc
    have hf : fetchMovieById p item.IMDBID = fetchMovieById p' item.IMDBID := by
      unfold fetchMovieById
      rw [hmb]
    unfold genreItemLoop
    rw [← hf]
    cases hm : fetchMovieById p item.IMDBID with
    | none => exact ih acc
    | some movie =>
      dsimp only
      by_cases hbad : movie.Response = "False" ∨ movie.IMDBRating = "N/A"
      · rw [if_pos hbad, if_pos hbad]
        exact ih acc
      · rw [if_neg hbad, if_neg hbad]
        by_cases hg : genreMatches movie.Genre genre = true
        · rw [if_pos hg, if_pos hg]
          exact ih _
        · rw [if_neg hg, if_neg hg]
          exact ih acc

theorem genreSeedLoop_cons_none {p : RawProvider} {genre seed : String}
    {rest : List String} {acc : List GenreMovie} (h : fetchSearch p seed = none) :
    genreSeedLoop p genre (seed :: rest) acc = genreSeedLoop p genre rest acc := by
  conv_lhs => unfold genreSeedLoop
  rw [h]

theorem genreSeedLoop_cons_some {p : RawProvider} {genre seed : String}
    {rest : List String} {acc : List GenreMovie} {r : SearchResults}
    (h : fetchSearch p seed = some r) :
    genreSeedLoop p genre (seed :: rest) acc =
      genreSeedLoop p genre rest (genreItemLoop p genre r.Search acc) := by
  conv_lhs => unfold genreSeedLoop
  rw [h]

theorem genreItemLoop_nil (p : RawProvider) (genre : String) (acc : List GenreMovie) :
    genreItemLoop p genre [] acc = acc :=
  rfl

theorem genreSeedLoop_congr {p p' : RawProvider} (hmb : p.movieById = p'.movieById)
    (hobsS : ∀ t, obsSearch p t = obsSearch p' t) (genre : String) :
    ∀ (seeds : List String) (acc : List GenreMovie),
      genreSeedLoop p genre seeds acc = genreSeedLoop p' genre seeds acc := by
  intro seeds
  induction seeds with
  | nil => intro acc; rfl
  | cons seed rest ih =>
    intro acc
    have hob := hobsS seed
    unfold obsSearch at hob
    cases hs : fetchSearch p seed with
    | none =>
      cases hs' : fetchSearch p' seed with
      | none =>
        rw [genreSeedLoop_cons_none hs, genreSeedLoop_cons_none hs']
        exact ih acc
      | some r' =>
        rw [hs, hs'] at hob
        dsimp only at hob
        rw [genreSeedLoop_cons_none hs, genreSeedLoop_cons_some hs', ← hob,
          genreItemLoop_nil]
        exact ih acc
    | some r =>
      cases hs' : fetchSearch p' seed with
      | none =>
        rw [hs, hs'] at hob
        dsimp only at hob
        rw [genreSeedLoop_cons_some hs, genreSeedLoop_cons_none hs', hob,
          genreItemLoop_nil]
        exact ih acc
      | some r' =>
        rw [hs, hs'] at hob
        dsimp only at hob
        rw [genreSeedLoop_cons_some hs, genreSeedLoop_cons_some hs', hob,
          genreItemLoop_congr hmb]
        exact ih _

theorem getMoviesByGenre_congr {p p' : RawProvider} (hmb : p.movieById = p'.movieById)
    (hobsS : ∀ t, obsSearch p t = obsSearch p' t) (genre : String) :
    getMoviesByGenre p genre = getMoviesByGenre p' genre := by
  unfold getMoviesByGenre
  rw [genreSeedLoop_congr hmb hobsS]

theorem pagesLoopT_fst (p : RawProvider) (level : String) (limit : Nat) (kw : String) :
    ∀ (fuel page : Nat) (st : CState),
      (pagesLoopT p level limit kw fuel page st).1 = pagesLoop p level limit kw fuel page st := by
  intro fuel
  induction fuel with
  | zero => intro page st; rfl
  | succ n ih =>
    intro page st
    unfold pagesLoopT pagesLoop
    by_cases hlt : st.results.length < limit
    · rw [if_pos hlt, if_pos hlt]
      cases hsr : fetchSearchPage p kw page with
      | none => exact ih (page + 1) st
      | some r => exact ih (page + 1) _
    · rw [if_neg hlt, if_neg hlt]

theorem pagesLoopT_trace_len (p : RawProvider) (level : String) (limit : Nat) (kw : String) :
    ∀ (fuel page : Nat) (st : CState),
      (pagesLoopT p level limit kw fuel page st).2.length ≤ fuel := by
  intro fuel
  induction fuel with
  | zero => intro page st; exact Nat.le_refl 0
  | succ n ih =>
    intro page st
    unfold pagesLoopT
    by_cases hlt : st.results.length < limit
    · rw [if_pos hlt]
      cases hsr : fetchSearchPage p kw page with
      | none =>
        dsimp only
        rw [List.length_cons]
        exact Nat.succ_le_succ (ih (page + 1) st)
      | some r =>
        dsimp only
        rw [List.length_cons]
        exact Nat.succ_le_succ (ih (page + 1) _)
    · rw [if_neg hlt]
      exact Nat.zero_le _

theorem kwLoopT_fst (p : RawProvider) (level : String) (limit : Nat) :
    ∀ (keywords : List String) (st : CState),
      (kwLoopT p level limit keywords st).1 = kwLoop p level limit keywords st := by
  intro keywords
  induction keywords with
  | nil => intro st; rfl
  | cons kw0 rest ih =>
    intro st
    unfold kwLoopT kwLoop
    by_cases hskip : goTrim kw0 = "" ∨ goTrim kw0 = "N/A"
    · rw [if_pos hskip, if_pos hskip]
      exact ih st
    · rw [if_neg hskip, if_neg hskip]
      dsimp only
      rw [pagesLoopT_fst]
      by_cases hlim : limit ≤ (pagesLoop p level limit (goTrim kw0) 3 1 st).results.length
      · rw [if_pos hlim, if_pos hlim]
      · rw [if_neg hlim, if_neg hlim]
        exact ih _

theorem kwLoopT_pages (p : RawProvider) (level : String) (limit : Nat) :
    ∀ (keywords : List String) (st : CState) (kw : String) (pgs : List Nat),
      (kw, pgs) ∈ (kwLoopT p level limit keywords st).2 → pgs.length ≤ 3 := by
  intro keywords
  induction keywords with
  | nil => intro st kw pgs h; cases h
  | cons kw0 rest ih =>
    intro st kw pgs h
    unfold kwLoopT at h
    by_cases hskip : goTrim kw0 = "" ∨ goTrim kw0 = "N/A"
    · rw [if_pos hskip] at h
      exact ih st kw pgs h
    · rw [if_neg hskip] at h
      dsimp only at h
      by_cases hlim : limit ≤ (pagesLoopT p level limit (goTrim kw0) 3 1 st).1.results.length
      · rw [if_pos hlim] at h
        have h' := List.mem_singleton.mp h
        have hp2 : pgs = (pagesLoopT p level limit (goTrim kw0) 3 1 st).2 :=
          congrArg Prod.snd h'
        rw [hp2]
        exact pagesLoopT_trace_len p level limit (goTrim kw0) 3 1 st
      · rw [if_neg hlim] at h
        rcases List.mem_cons.mp h with h1 | h2
        · have hp2 : pgs = (pagesLoopT p level limit (goTrim kw0) 3 1 st).2 :=
            congrArg Prod.snd h1
          rw [hp2]
          exact pagesLoopT_trace_len p level limit (goTrim kw0) 3 1 st
        · exact ih _ kw pgs h2

theorem genreSeedLoopT_fst (p : RawProvider) (genre : String) :
    ∀ (seeds : List String) (acc : List GenreMovie),
      (genreSeedLoopT p genre seeds acc).1 = genreSeedLoop p genre seeds acc := by
  intro seeds
  induction seeds with
  | nil => intro acc; rfl
  | cons seed rest ih =>
    intro acc
    unfold genreSeedLoopT genreSeedLoop
    cases hs : fetchSearch p seed with
    | none => exact ih acc
    | some r => exact ih _

theorem genreSeedLoopT_trace (p : RawProvider) (genre : String) :
    ∀ (seeds : List String) (acc : List GenreMovie),
      (genreSeedLoopT p genre seeds acc).2 = seeds := by
  intro seeds
  induction seeds with
  | nil => intro acc; rfl
  | cons seed rest ih =>
    intro acc
    unfold genreSeedLoopT
    dsimp only
    rw [ih]

theorem capAt_len_le {α : Type} (n : Nat) (l : List α) : (capAt n l).length ≤ n := by
  unfold capAt
  by_cases h : n < l.length
  · rw [if_pos h, List.length_take]
    exact Nat.min_le_left n _
  · rw [if_neg h]
    exact Nat.le_of_not_lt h

theorem pRel_coherent : Coherent pRel := by
  intro id m h
  unfold pRel at h
  dsimp only at h
  by_cases h1 : id = "r1"
  · rw [if_pos h1] at h
    injection h with h2
    rw [← h2]
    rfl
  · rw [if_neg h1] at h
    by_cases h2 : id = "g1"
    · rw [if_pos h2] at h
      injection h with h3
      rw [← h3]
      rfl
    · rw [if_neg h2] at h
      cases h

/-- C1: the cap keeps the top of the ranked list, never an arbitrary
prefix of the unranked pool.  For the category search, any accepted
candidate left outside the returned list scores no higher than every
returned entry (the truncation happens after the descending sort).  For
a relation-search axis, collection stops as soon as the limit is
reached and the sorted list is returned untruncated, so every candidate
accepted for the axis appears in the returned list and nothing
successfully resolved and accepted is discarded. -/
theorem spec_C1 (p : RawProvider) (genre level : String) (keywords : List String)
    (limit : Nat) (seen : List String) :
    (∀ x ∈ genreSeedLoop p genre searchSeeds [], x ∉ getMoviesByGenre p genre →
      ∀ y ∈ getMoviesByGenre p genre, ratingVal x.imdbRating ≤ ratingVal y.imdbRating) ∧
    (∀ x ∈ (kwLoop p level limit keywords ⟨[], seen⟩).results,
      x ∈ (collect p level keywords limit seen).1) :=
  ⟨fun _ hx hnot y hy => getMoviesByGenre_cap_after_rank hx hnot y hy,
   fun _ hx => mem_sortSlice.mpr hx⟩

theorem spec_C1_witness :
    ratingVal (mkGenreMovie (relMovie "m16" "1" "Drama")).imdbRating ≤
      ratingVal (mkGenreMovie (relMovie "m01" "1" "Drama")).imdbRating ∧
    mkRecMovie "Genre" (relMovie "r1" "7.5" "War") ∈
      (collect pRel "Genre" (goSplit favWar.Genre ',') 5 [favWar.IMDBID]).1 := by
  constructor
  · exact (spec_C1 pW1 "Drama" "Genre" [] 5 []).1
      (mkGenreMovie (relMovie "m16" "1" "Drama")) (by decide) (by decide)
      (mkGenreMovie (relMovie "m01" "1" "Drama")) (by decide)
  · exact (spec_C1 pRel "Drama" "Genre" (goSplit favWar.Genre ',') 5 [favWar.IMDBID]).2
      (mkRecMovie "Genre" (relMovie "r1" "7.5" "War")) (by decide)

/-- C2 (amended): for every relation search against an id-coherent
provider, the identifiers across the returned lists are pairwise
distinct and the seed's own identifier appears in none of them; in the
current variant an identifier accepted under one axis enters the shared
seen set and is rejected under every later axis, and in the older
variant the final dedup pass keeps only the first occurrence in the
merged list.  The category search applies no dedup at all and can
return the same identifier twice, which is what refutes the claim as
stated for every request. -/
theorem spec_C2 (p : RawProvider) (fav : String) (favM : MovieResponse)
    (hp : Coherent p) (hfav : fetchMovieByTitle p fav = some favM) :
    (∀ out : RecOutput, getRecommendations p fav = .ok out →
      (allIds out).Nodup ∧ favM.IMDBID ∉ allIds out) ∧
    (∀ out0 : Rec0Output, getRecommendationsV0 p fav = some out0 →
      (ids0 out0.recommendations).Nodup ∧ favM.IMDBID ∉ ids0 out0.recommendations) := by
  constructor
  · intro out hok
    by_cases hfe : fav = ""
    · unfold getRecommendations at hok
      rw [if_pos hfe] at hok
      cases hok
    · unfold getRecommendations at hok
      rw [if_neg hfe, hfav] at hok
      dsimp only at hok
      injection hok with hout
      rw [← hout]
      obtain ⟨hnod1, hmem1, hmono1⟩ :=
        collect_spec hp "Genre" (goSplit favM.Genre ',') 5 [favM.IMDBID]
      obtain ⟨hnod2, hmem2, hmono2⟩ :=
        collect_spec hp "Director" (goSplit favM.Director ',') 5
          (collect p "Genre" (goSplit favM.Genre ',') 5 [favM.IMDBID]).2
      obtain ⟨hnod3, hmem3, hmono3⟩ :=
        collect_spec hp "Actor" (goSplit favM.Actors ',') 5
          (collect p "Director" (goSplit favM.Director ',') 5
            (collect p "Genre" (goSplit favM.Genre ',') 5 [favM.IMDBID]).2).2
      have hd12 : (idsR (getRecommendationsCore p favM).by_genre).Disjoint
          (idsR (getRecommendationsCore p favM).by_director) := by
        intro i hi1 hi2
        exact (hmem2 i hi2).2 (hmem1 i hi1).1
      have hd3 : ∀ i ∈ idsR (getRecommendationsCore p favM).by_genre ++
          idsR (getRecommendationsCore p favM).by_director,
          i ∉ idsR (getRecommendationsCore p favM).by_actor := by
        intro i hi hi3
        rcases List.mem_append.mp hi with h1 | h2
        · exact (hmem3 i hi3).2 (hmono2 i (hmem1 i h1).1)
        · exact (hmem3 i hi3).2 (hmem2 i h2).1
      constructor
      · unfold allIds
        refine List.nodup_append.mpr ⟨List.nodup_append.mpr ⟨hnod1, hnod2, hd12⟩,
          hnod3, List.disjoint_left.mpr hd3⟩
      · unfold allIds
        intro hmem
        rcases List.mem_append.mp hmem with h12 | h3
        · rcases List.mem_append.mp h12 with h1 | h2
          · exact (hmem1 _ h1).2 (List.mem_singleton.mpr rfl)
          · exact (hmem2 _ h2).2 (hmono1 _ (List.mem_singleton.mpr rfl))
        · exact (hmem3 _ h3).2 (hmono2 _ (hmono1 _ (List.mem_singleton.mpr rfl)))
  · intro out0 h0
    by_cases hfe : fav = ""
    · unfold getRecommendationsV0 at h0
      rw [if_pos hfe] at h0
      cases h0
    · unfold getRecommendationsV0 at h0
      rw [if_neg hfe, hfav] at h0
      dsimp only at h0
      cases hg : collect0 p "Genre" (goSplit favM.Genre ',') 20 favM.IMDBID with
      | none => rw [hg] at h0; cases h0
      | some g =>
        rw [hg] at h0
        cases hd : collect0 p "Director" (goSplit favM.Director ',') 20 favM.IMDBID with
        | none => rw [hd] at h0; cases h0
        | some d =>
          rw [hd] at h0
          cases ha : collect0 p "Actor" (goSplit favM.Actors ',') 20 favM.IMDBID with
          | none => rw [ha] at h0; cases h0
          | some a =>
            rw [ha] at h0
            dsimp only at h0
            injection h0 with hout
            rw [← hout]
            constructor
            · exact (dedupByID_nodup (g ++ d ++ a) []).1
            · intro hmem
              unfold ids0 at hmem
              rcases List.mem_map.mp hmem with ⟨e, he, hie⟩
              have he' : e ∈ g ++ d ++ a := dedupByID_subset he
              rcases List.mem_append.mp he' with h12 | h3
              · rcases List.mem_append.mp h12 with h1 | h2
                · exact collect0_prop hp hg e h1 hie
                · exact collect0_prop hp hd e h2 hie
              · exact collect0_prop hp ha e h3 hie

theorem spec_C2_counterexample :
    idsG (getMoviesByGenre pDup "Drama") = ["x", "x"] ∧
    ¬ (idsG (getMoviesByGenre pDup "Drama")).Nodup := by
  constructor
  · decide
  · decide

theorem spec_C2_witness :
    ((allIds ⟨"FavTitle", [mkRecMovie "Genre" (relMovie "r1" "7.5" "War")], [], []⟩).Nodup ∧
      favWar.IMDBID ∉ allIds ⟨"FavTitle", [mkRecMovie "Genre" (relMovie "r1" "7.5" "War")], [], []⟩) ∧
    ((ids0 [mkRec0Movie "Genre" (relMovie "r1" "7.5" "War")]).Nodup ∧
      favWar.IMDBID ∉ ids0 [mkRec0Movie "Genre" (relMovie "r1" "7.5" "War")]) := by
  have h := spec_C2 pRel "Fav" favWar pRel_coherent (by decide)
  exact ⟨h.1 ⟨"FavTitle", [mkRecMovie "Genre" (relMovie "r1" "7.5" "War")], [], []⟩ rfl,
    h.2 ⟨"FavTitle", [mkRec0Movie "Genre" (relMovie "r1" "7.5" "War")]⟩ rfl⟩

/-- C4 (amended): only the exact sentinel "N/A" is filtered out before
ranking: no returned entry carries the rating string "N/A", but a score
string that is unparseable without being the sentinel is not excluded —
it is retained and compares as zero (see the counterexample). -/
theorem spec_C4 (p : RawProvider) (genre fav : String) :
    (∀ e ∈ getMoviesByGenre p genre, e.imdbRating ≠ "N/A") ∧
    (∀ out : RecOutput, getRecommendations p fav = .ok out →
      ∀ e ∈ out.by_genre ++ out.by_director ++ out.by_actor, e.imdbRating ≠ "N/A") := by
  constructor
  · intro e he
    exact (getMoviesByGenre_prop e he).1
  · intro out hok e he
    by_cases hfe : fav = ""
    · unfold getRecommendations at hok
      rw [if_pos hfe] at hok
      cases hok
    · unfold getRecommendations at hok
      rw [if_neg hfe] at hok
      cases hm : fetchMovieByTitle p fav with
      | none => rw [hm] at hok; cases hok
      | some favM =>
        rw [hm] at hok
        dsimp only at hok
        injection hok with hout
        rw [← hout] at he
        rcases List.mem_append.mp he with h12 | h3
        · rcases List.mem_append.mp h12 with h1 | h2
          · exact collect_rating p "Genre" (goSplit favM.Genre ',') 5 _ e h1
          · exact collect_rating p "Director" (goSplit favM.Director ',') 5 _ e h2
        · exact collect_rating p "Actor" (goSplit favM.Actors ',') 5 _ e h3

theorem spec_C4_counterexample :
    getMoviesByGenre pBadScore "Drama" = [mkGenreMovie (relMovie "b" "great" "Drama")] ∧
    parseDec (mkGenreMovie (relMovie "b" "great" "Drama")).imdbRating = none ∧
    (mkGenreMovie (relMovie "b" "great" "Drama")).imdbRating ≠ "N/A" := by
  refine ⟨by decide, by decide, by decide⟩

theorem spec_C4_witness :
    (mkGenreMovie (relMovie "g1" "8.0" "Drama")).imdbRating ≠ "N/A" ∧
    (mkRecMovie "Genre" (relMovie "r1" "7.5" "War")).imdbRating ≠ "N/A" := by
  have h := spec_C4 pRel "Drama" "Fav"
  exact ⟨h.1 (mkGenreMovie (relMovie "g1" "8.0" "Drama")) (by decide),
    h.2 ⟨"FavTitle", [mkRecMovie "Genre" (relMovie "r1" "7.5" "War")], [], []⟩ rfl
      (mkRecMovie "Genre" (relMovie "r1" "7.5" "War")) (by decide)⟩

/-- C5: with a supplied seed title, the relation search fails exactly
when the seed cannot be resolved, and an error response carries no
result data by construction; whenever the seed resolves, the operation
returns the full collected output and never an error — every other
provider failure was swallowed inside the collection loops. -/
theorem spec_C5 (p : RawProvider) (fav : String) (hfav : fav ≠ "") :
    ((∃ msg, getRecommendations p fav = .error msg) ↔ fetchMovieByTitle p fav = none) ∧
    (∀ favM, fetchMovieByTitle p fav = some favM →
      getRecommendations p fav = .ok (getRecommendationsCore p favM)) := by
  constructor
  · constructor
    · rintro ⟨msg, hmsg⟩
      unfold getRecommendations at hmsg
      rw [if_neg hfav] at hmsg
      cases h : fetchMovieByTitle p fav with
      | none => rfl
      | some favM =>
        rw [h] at hmsg
        cases hmsg
    · intro h
      refine ⟨"Favorite movie not found", ?_⟩
      unfold getRecommendations
      rw [if_neg hfav, h]
  · intro favM h
    unfold getRecommendations
    rw [if_neg hfav, h]

theorem spec_C5_witness :
    getRecommendations pRel "Fav" = .ok (getRecommendationsCore pRel favWar) :=
  (spec_C5 pRel "Fav" (by decide)).2 favWar (by decide)

/-- C6: every returned result list respects its cap: at most 15 entries
for the category search and at most 5 entries per axis for the relation
search. -/
theorem spec_C6 (p : RawProvider) (genre fav : String) :
    (getMoviesByGenre p genre).length ≤ 15 ∧
    (∀ out : RecOutput, getRecommendations p fav = .ok out →
      out.by_genre.length ≤ 5 ∧ out.by_director.length ≤ 5 ∧ out.by_actor.length ≤ 5) := by
  constructor
  · unfold getMoviesByGenre
    exact capAt_len_le 15 _
  · intro out hok
    by_cases hfe : fav = ""
    · unfold getRecommendations at hok
      rw [if_pos hfe] at hok
      cases hok
    · unfold getRecommendations at hok
      rw [if_neg hfe] at hok
      cases hm : fetchMovieByTitle p fav with
      | none => rw [hm] at hok; cases hok
      | some favM =>
        rw [hm] at hok
        dsimp only at hok
        injection hok with hout
        rw [← hout]
        exact ⟨collect_len p "Genre" (goSplit favM.Genre ',') 5 _,
          collect_len p "Director" (goSplit favM.Director ',') 5 _,
          collect_len p "Actor" (goSplit favM.Actors ',') 5 _⟩

theorem spec_C6_witness :
    (getMoviesByGenre pRel "Drama").length ≤ 15 ∧
    ([mkRecMovie "Genre" (relMovie "r1" "7.5" "War")] : List RecMovie).length ≤ 5 := by
  have h := spec_C6 pRel "Drama" "Fav"
  exact ⟨h.1,
    (h.2 ⟨"FavTitle", [mkRecMovie "Genre" (relMovie "r1" "7.5" "War")], [], []⟩ rfl).1⟩

/-- C7: every entry of a category-search result owes its acceptance to
a tag match: some tag obtained by splitting its comma-delimited genre
field equals the requested category value after trimming, compared
case-insensitively; an entity with no such tag never appears. -/
theorem spec_C7 (p : RawProvider) (genre : String) :
    ∀ e ∈ getMoviesByGenre p genre,
      ∃ g, g ∈ goSplit e.Genre ',' ∧ goEqualFold (goTrim g) genre = true := by
  intro e he
  have hg := (getMoviesByGenre_prop e he).2
  unfold genreMatches at hg
  rcases List.any_eq_true.mp hg with ⟨g, hgmem, hgf⟩
  exact ⟨g, hgmem, hgf⟩

theorem spec_C7_witness :
    ∃ g, g ∈ goSplit (mkGenreMovie (relMovie "g1" "8.0" "Drama")).Genre ',' ∧
      goEqualFold (goTrim g) "Drama" = true :=
  spec_C7 pRel "Drama" (mkGenreMovie (relMovie "g1" "8.0" "Drama")) (by decide)

/-- C8 (amended): a failed page fetch is skipped like an empty page:
it contributes no candidates and is never fatal, and the collection
continues with the next page of the same term (not with the next term —
see the counterexample).  Formally, two providers that agree on
candidate resolution and on the observable content of every search call
(where a failed call and an empty page are observationally the same)
produce identical responses for both operations. -/
theorem spec_C8 (p p' : RawProvider) (fav genre : String)
    (hmb : p.movieById = p'.movieById) (hmt : p.movieByTitle = p'.movieByTitle)
    (hobs : ∀ t n, obsSearchPage p t n = obsSearchPage p' t n)
    (hobsS : ∀ t, obsSearch p t = obsSearch p' t) :
    getRecommendations p fav = getRecommendations p' fav ∧
    getMoviesByGenre p genre = getMoviesByGenre p' genre :=
  ⟨getRecommendations_congr hmb hmt hobs fav, getMoviesByGenre_congr hmb hobsS genre⟩

theorem spec_C8_counterexample :
    (pQ true).searchPage "War" 1 = none ∧
    getRecommendations (pQ true) "Fav" =
      .ok ⟨"FavTitle", [mkRecMovie "Genre" (relMovie "q2" "6.0" "War")], [], []⟩ := by
  exact ⟨rfl, rfl⟩

theorem spec_C8_witness :
    getRecommendations (pQ true) "Fav" = getRecommendations (pQ false) "Fav" ∧
    getMoviesByGenre (pQ true) "Drama" = getMoviesByGenre (pQ false) "Drama" := by
  refine spec_C8 (pQ true) (pQ false) "Fav" "Drama" rfl rfl ?_ ?_
  · intro t n
    unfold obsSearchPage fetchSearchPage pQ
    dsimp only
    by_cases h1 : t = "War" ∧ n = 1
    · rw [if_pos h1, if_pos h1]
      rfl
    · rw [if_neg h1, if_neg h1]
  · intro t
    rfl

/-- C9: the service holds no mutable state across requests beyond the
startup configuration, so with a fixed deterministic provider a repeated
request yields the identical response and leaves the server state
unchanged. -/
theorem spec_C9 (p : RawProvider) (st : ServerState) (r : ApiRequest) :
    handle p ((handle p st r).2) r = handle p st r ∧ (handle p st r).2 = st := by
  cases r with
  | byGenre g => exact ⟨rfl, rfl⟩
  | related f => exact ⟨rfl, rfl⟩

/-- C10: provider traffic is bounded by the code's shape alone: the
category search issues exactly one search call per seed term of its
fixed seven-element vocabulary, and a relation search requests at most
three pages per searched keyword; both instrumented loops project back
onto the plain ones, and every loop is a total function, so each
collection pass terminates regardless of provider responses. -/
theorem spec_C10 (p : RawProvider) (genre level : String) (limit : Nat)
    (keywords : List String) (st : CState) :
    (genreSeedLoopT p genre searchSeeds []).2 = searchSeeds ∧
    searchSeeds.length = 7 ∧
    searchSeeds.Nodup ∧
    (genreSeedLoopT p genre searchSeeds []).1 = genreSeedLoop p genre searchSeeds [] ∧
    (kwLoopT p level limit keywords st).1 = kwLoop p level limit keywords st ∧
    ∀ kw pgs, (kw, pgs) ∈ (kwLoopT p level limit keywords st).2 → pgs.length ≤ 3 :=
  ⟨genreSeedLoopT_trace p genre searchSeeds [], by decide, by decide,
    genreSeedLoopT_fst p genre searchSeeds [], kwLoopT_fst p level limit keywords st,
    fun kw pgs h => kwLoopT_pages p level limit keywords st kw pgs h⟩

theorem spec_C10_witness : ([1, 2, 3] : List Nat).length ≤ 3 :=
  (spec_C10 pRel "Drama" "Genre" 5 (goSplit favWar.Genre ',') ⟨[], ["f"]⟩).2.2.2.2.2
    "War" [1, 2, 3] (by decide)

end MovieApi
